import Mathlib

/-!
Shallow embedding of the `ep-extraction-worker` service (TypeScript) in Lean 4.

Source files embedded:
  * `src/extractor.ts` — request-routing policy, manifest capture, result
    construction (`doExtraction`, `extractM3u8`).
  * `src/browserPool.ts` — lazy browser lifecycle, circuit breaker,
    priority-limited task queue (`BrowserPool`).
  * `src/routes/extract.ts` — the `POST /extract` HTTP handler (priority
    mapping, outcome classification, metrics labels).

External dependencies are modelled from their documented contracts where the
code relies on them: the WHATWG `URL` constructor (hierarchical
`scheme://authority` URLs) and the `p-queue` priority queue (priority
descending, FIFO within a priority, bounded concurrency).
-/

namespace EPExtraction

/-! ## Character-list string primitives

JavaScript string operations used by the source (`String.prototype.includes`,
suffix tests, case-insensitive regex literals) are modelled over `List Char`.
-/

/-- `charsPrefix pat cs` is true when `pat` is a prefix of `cs`. -/
def charsPrefix : List Char → List Char → Bool
  | [], _ => true
  | _ :: _, [] => false
  | a :: as, b :: bs => a = b && charsPrefix as bs

/-- `charsSub pat cs` is true when `pat` occurs as a contiguous substring of
`cs`; models JavaScript `String.prototype.includes`. -/
def charsSub (pat : List Char) : List Char → Bool
  | [] => pat.isEmpty
  | c :: cs => charsPrefix pat (c :: cs) || charsSub pat cs

/-- `strContains s pat`: `pat` occurs inside `s` (case-sensitive). -/
def strContains (s pat : String) : Bool := charsSub pat.data s.data

/-- `charsSuffix pat cs` is true when `pat` is a suffix of `cs`. -/
def charsSuffix (pat cs : List Char) : Bool := charsPrefix pat.reverse cs.reverse

/-- `strEndsWithLit s pat`: `s` ends with `pat`. -/
def strEndsWithLit (s pat : String) : Bool := charsSuffix pat.data s.data

/-- ASCII lowercasing, as `toLowerCase`/case-insensitive matching acts on the
URL characters concerned. -/
def lowerChar (c : Char) : Char :=
  if 'A' ≤ c ∧ c ≤ 'Z' then Char.ofNat (c.toNat + 32) else c

/-- Case-insensitive containment, modelling a case-insensitive regex literal
matched against the URL (the pattern is given already lowercased). -/
def strContainsCI (s pat : String) : Bool := charsSub pat.data (s.data.map lowerChar)

/-- Case-insensitive suffix test (for the `(\?|$)` end-anchor alternative). -/
def strEndsWithCI (s pat : String) : Bool := charsSuffix pat.data (s.data.map lowerChar)

theorem charsPrefix_append (p rest : List Char) : charsPrefix p (p ++ rest) = true := by
  induction p with
  | nil => rfl
  | cons a as ih => simp [charsPrefix, ih]

theorem charsSub_of_charsPrefix {pat cs : List Char} (h : charsPrefix pat cs = true) :
    charsSub pat cs = true := by
  cases cs with
  | nil =>
    cases pat with
    | nil => rfl
    | cons a as => simp [charsPrefix] at h
  | cons c cs => simp [charsSub, h]

theorem charsSub_append_left (p rest : List Char) : charsSub p (p ++ rest) = true :=
  charsSub_of_charsPrefix (charsPrefix_append p rest)

/-! ## WHATWG URL model (hierarchical subset)

The source calls `new URL(...)` and reads `.origin`.  We model the URL
constructor for hierarchical `scheme://host[:port][/...]` URLs — the form the
service actually handles (http/https embeds, referers, CDNs).  `authority` is
the `host[:port]` part; the origin serialises as `scheme://authority`. -/

structure Url where
  scheme : List Char
  authority : List Char
deriving Repr, DecidableEq

/-- Characters allowed to continue the authority component: the authority scan
stops at the first `/`, `?` or `#`. -/
def authorityOk (c : Char) : Bool := c ≠ '/' && c ≠ '?' && c ≠ '#'

/-- Split a character list at the first `:`; `none` when there is no `:`. -/
def splitScheme : List Char → Option (List Char × List Char)
  | [] => none
  | c :: cs =>
    if c = ':' then some ([], cs)
    else
      match splitScheme cs with
      | some (sch, rest) => some (c :: sch, rest)
      | none => none

/-- Consume the `//` that must follow the scheme's `:`. -/
def expectSlashes : List Char → Option (List Char)
  | a :: b :: rest => if a = '/' ∧ b = '/' then some rest else none
  | _ => none

/-- Parse a hierarchical absolute URL: a nonempty scheme, `://`, then a
nonempty authority running to the first `/`, `?` or `#`. -/
def parseUrlChars (cs : List Char) : Option Url :=
  match splitScheme cs with
  | none => none
  | some (scheme, rest) =>
    match expectSlashes rest with
    | none => none
    | some rest2 =>
      let auth := rest2.takeWhile authorityOk
      if scheme.isEmpty || auth.isEmpty then none else some ⟨scheme, auth⟩

def urlOriginChars (u : Url) : List Char := u.scheme ++ ':' :: '/' :: '/' :: u.authority

/-- `new URL(s)` (hierarchical subset): `none` models the constructor
throwing. -/
def parseUrl (s : String) : Option Url := parseUrlChars s.data

/-- `.origin` of a parsed URL. -/
def urlOrigin (u : Url) : String := ⟨urlOriginChars u⟩

/-- The origin of a URL string, when it parses: `new URL(s).origin`. -/
def originOfString (s : String) : Option String := (parseUrl s).map urlOrigin

theorem splitScheme_no_colon {cs sch rest : List Char}
    (h : splitScheme cs = some (sch, rest)) : ':' ∉ sch := by
  induction cs generalizing sch rest with
  | nil => simp [splitScheme] at h
  | cons c cs ih =>
    by_cases hc : c = ':'
    · subst hc
      simp only [splitScheme, if_true, Option.some.injEq, Prod.mk.injEq, reduceIte] at h
      obtain ⟨h1, _⟩ := h
      subst h1
      simp
    · simp only [splitScheme, if_neg hc] at h
      cases hsp : splitScheme cs with
      | none => rw [hsp] at h; simp at h
      | some p =>
        obtain ⟨sch', rest'⟩ := p
        rw [hsp] at h
        simp only [Option.some.injEq, Prod.mk.injEq] at h
        obtain ⟨h1, _⟩ := h
        subst h1
        intro hmem
        rcases List.mem_cons.mp hmem with h' | h'
        · exact hc h'.symm
        · exact ih hsp h'

theorem splitScheme_reassemble {sch rest : List Char} (h : ':' ∉ sch) :
    splitScheme (sch ++ ':' :: rest) = some (sch, rest) := by
  induction sch with
  | nil => simp [splitScheme]
  | cons c cs ih =>
    have hc : c ≠ ':' := fun hc => h (by simp [hc])
    have hcs : ':' ∉ cs := fun hm => h (by simp [hm])
    simp [splitScheme, if_neg hc, ih hcs]

theorem takeWhile_append_stop {auth : List Char} (hall : ∀ c ∈ auth, authorityOk c = true) :
    (auth ++ ['/']).takeWhile authorityOk = auth := by
  induction auth with
  | nil => simp [List.takeWhile, authorityOk]
  | cons c cs ih =>
    have hc : authorityOk c = true := hall c (by simp)
    have hcs : ∀ x ∈ cs, authorityOk x = true := fun x hx => hall x (by simp [hx])
    simp [List.takeWhile, hc, ih hcs]

theorem expectSlashes_eq_some {l rest : List Char} (h : expectSlashes l = some rest) :
    l = '/' :: '/' :: rest := by
  match l with
  | [] => simp [expectSlashes] at h
  | [a] => simp [expectSlashes] at h
  | a :: b :: t =>
    by_cases hab : a = '/' ∧ b = '/'
    · simp only [expectSlashes, if_pos hab, Option.some.injEq] at h
      simp [hab.1, hab.2, h]
    · simp [expectSlashes, if_neg hab] at h

theorem expectSlashes_slashes (rest : List Char) :
    expectSlashes ('/' :: '/' :: rest) = some rest := by
  simp [expectSlashes]

/-- Well-formedness facts produced by the parser. -/
theorem parseUrlChars_wf {cs : List Char} {u : Url} (h : parseUrlChars cs = some u) :
    u.scheme ≠ [] ∧ u.authority ≠ [] ∧ (':' ∉ u.scheme) ∧
      ∀ c ∈ u.authority, authorityOk c = true := by
  unfold parseUrlChars at h
  split at h
  · exact absurd h (by simp)
  next sch rest hsp =>
    split at h
    · exact absurd h (by simp)
    next rest2 hes =>
      dsimp only at h
      split at h
      · exact absurd h (by simp)
      next hemp =>
        have hu : u = ⟨sch, rest2.takeWhile authorityOk⟩ := by
          cases h; rfl
        subst hu
        simp only [Bool.or_eq_true, List.isEmpty_iff, not_or] at hemp
        refine ⟨hemp.1, hemp.2, splitScheme_no_colon hsp, ?_⟩
        intro c hc
        exact List.mem_takeWhile_imp hc

/-- Round trip: parsing `origin ++ "/"` of a parsed URL returns the same URL.
This is the idempotence of origin extraction that the extractor relies on when
it sets `Referer := origin + '/'` and `Origin := origin`. -/
theorem parseUrlChars_origin_roundtrip {cs : List Char} {u : Url}
    (h : parseUrlChars cs = some u) :
    parseUrlChars (urlOriginChars u ++ ['/']) = some u := by
  obtain ⟨hs, ha, hnc, hall⟩ := parseUrlChars_wf h
  unfold urlOriginChars parseUrlChars
  have heq : (u.scheme ++ ':' :: '/' :: '/' :: u.authority) ++ ['/']
      = u.scheme ++ ':' :: ('/' :: '/' :: (u.authority ++ ['/'])) := by
    simp
  rw [heq, splitScheme_reassemble hnc]
  dsimp only
  rw [expectSlashes_slashes]
  dsimp only
  rw [takeWhile_append_stop hall]
  rw [if_neg (by simp [List.isEmpty_iff, hs, ha])]

theorem originOfString_roundtrip {s : String} {u : Url} (h : parseUrl s = some u) :
    originOfString (urlOrigin u ++ "/") = some (urlOrigin u) := by
  have hdata : (urlOrigin u ++ "/").data = urlOriginChars u ++ ['/'] := rfl
  unfold originOfString parseUrl
  rw [hdata, parseUrlChars_origin_roundtrip h]
  rfl

/-! ## `src/extractor.ts` — request filtering patterns

`BLOCK_PATTERNS`, `PLAYER_DOMAIN_REGEX` and `TELEMETRY_PATTERN` are
case-insensitive regex literals over the URL; each is a literal substring or a
small alternation, expanded here over the lowercased URL.
`\.(mp4|webm)(\?|$)` means ".mp4"/".webm" followed by `?` or end of URL. -/

def blockPatternHit (url : String) : Bool :=
  strContainsCI url "google-analytics.com" ||
  strContainsCI url "googletagmanager.com" ||
  (strContainsCI url "facebook.com" || strContainsCI url "facebook.net") ||
  strContainsCI url "doubleclick.net" ||
  strContainsCI url "analytics." ||
  strContainsCI url "hotjar.com" ||
  strContainsCI url "clarity.ms" ||
  strContainsCI url "sentry.io" ||
  (strContainsCI url "segment.com" || strContainsCI url "segment.io") ||
  strContainsCI url "mixpanel.com" ||
  strContainsCI url "amplitude.com" ||
  strContainsCI url "newrelic.com" ||
  strContainsCI url "bugsnag.com" ||
  strContainsCI url "datadog" ||
  strContainsCI url "ads." ||
  strContainsCI url "adserver." ||
  strContainsCI url "pagead" ||
  strContainsCI url "prebid" ||
  strContainsCI url "adsystem" ||
  strContainsCI url "adservice" ||
  (strContainsCI url ".mp4?" || strEndsWithCI url ".mp4" ||
   strContainsCI url ".webm?" || strEndsWithCI url ".webm")

/-- `PLAYER_DOMAIN_REGEX = /player|jwplayer|plyr|video|embed|hls|dash|stream/i`. -/
def playerDomainHit (url : String) : Bool :=
  strContainsCI url "player" || strContainsCI url "jwplayer" || strContainsCI url "plyr" ||
  strContainsCI url "video" || strContainsCI url "embed" || strContainsCI url "hls" ||
  strContainsCI url "dash" || strContainsCI url "stream"

/-- `TELEMETRY_PATTERN = /analytics|tracking|beacon|metrics|telemetry|collect|log|event/i`. -/
def telemetryHit (url : String) : Bool :=
  strContainsCI url "analytics" || strContainsCI url "tracking" || strContainsCI url "beacon" ||
  strContainsCI url "metrics" || strContainsCI url "telemetry" || strContainsCI url "collect" ||
  strContainsCI url "log" || strContainsCI url "event"

/-- `url.includes('.m3u8') && !url.includes('.ts.m3u8')`: the target manifest
test of the route handler (case-sensitive, as in the source). -/
def isTargetManifest (url : String) : Bool :=
  strContains url ".m3u8" && !strContains url ".ts.m3u8"

/-! ## `src/extractor.ts` — route interceptor classification -/

inductive RouteDecision
  | manifestAbort
  | blockResourceType
  | blockScript
  | blockTelemetry
  | blockPattern
  | proceed
deriving Repr, DecidableEq

/-- The single route interceptor of `doExtraction`, as a classification of a
request (URL and resource type) into the branch taken, in the source's
order: manifest check first, then image/font/stylesheet, then non-player
scripts matching a block pattern, then telemetry xhr/fetch, then any
block-pattern match, else continue. -/
def routeDecision (url resourceType : String) : RouteDecision :=
  if isTargetManifest url then .manifestAbort
  else if resourceType = "image" || resourceType = "font" || resourceType = "stylesheet" then
    .blockResourceType
  else
    let shouldBlock := blockPatternHit url
    if resourceType = "script" && !playerDomainHit url && shouldBlock then .blockScript
    else if (resourceType = "xhr" || resourceType = "fetch") && telemetryHit url then
      .blockTelemetry
    else if shouldBlock then .blockPattern
    else .proceed

/-- Whether a classification calls `route.abort()` (every branch except
`continue`). -/
def RouteDecision.aborts : RouteDecision → Bool
  | .proceed => false
  | _ => true

/-- The classification table exactly as the C7 claim words it: manifest check
performed first; then image/font/stylesheet aborted; then a script not
matching the player-domain regex but matching a block pattern aborted; then
an xhr/fetch matching the telemetry pattern aborted; then any URL matching a
block pattern aborted; all remaining requests continued. -/
def claimRouteDecision (url resourceType : String) : RouteDecision :=
  if strContains url ".m3u8" && !strContains url ".ts.m3u8" then .manifestAbort
  else if resourceType = "image" || resourceType = "font" || resourceType = "stylesheet" then
    .blockResourceType
  else if resourceType = "script" && !playerDomainHit url && blockPatternHit url then
    .blockScript
  else if (resourceType = "xhr" || resourceType = "fetch") && telemetryHit url then
    .blockTelemetry
  else if blockPatternHit url then .blockPattern
  else .proceed

/-! ## `src/extractor.ts` — ExtractionResult construction -/

/-- `ExtractedStream` from `extractor.ts`: `headers` and `cookies` are
optional in the TypeScript interface. -/
structure ExtractedStream where
  url : String
  headers : Option (List (String × String))
  cookies : Option String
deriving Repr, DecidableEq

/-- The stealth user agent string used for the `User-Agent` header. -/
def STEALTH_UA : String :=
  "Mozilla/5.0 (Windows NT 10.0; Win64; x64) AppleWebKit/537.36 (KHTML, like Gecko) Chrome/120.0.0.0 Safari/537.36"

/-- `headers['referer'] || null`: JavaScript `||` turns an empty referer
string into `null`. -/
def refererHeaderOrNull : Option String → Option String
  | some "" => none
  | x => x

/-- The referer-origin computation of the m3u8 branch: from the request's
`Referer` header when parseable, else from the embed URL's origin; `none`
models `new URL(embedUrl)` throwing (no result is produced then). -/
def refererOriginOf (m3u8Referer : Option String) (embedUrl : String) : Option String :=
  match m3u8Referer with
  | some r =>
    match parseUrl r with
    | some u => some (urlOrigin u)
    | none => (parseUrl embedUrl).map urlOrigin
  | none => (parseUrl embedUrl).map urlOrigin

/-- The cookie string: `name=value` pairs joined by `"; "`, and only set when
at least one cookie was captured; `none` for the snapshot models
`context.cookies()` throwing (swallowed, no cookie string). -/
def cookieStringOf : Option (List (String × String)) → Option String
  | none => none
  | some [] => none
  | some l => some (String.intercalate "; " (l.map fun c => c.1 ++ "=" ++ c.2))

/-- The `ExtractedStream` resolved by the m3u8 branch of the route handler:
`Referer := refererOrigin + "/"`, `Origin := refererOrigin`, the stealth
`User-Agent`, and the cookie string from the snapshot taken before the
request was aborted. -/
def manifestResult (url : String) (refererHeader : Option String) (embedUrl : String)
    (snapshot : Option (List (String × String))) : Option ExtractedStream :=
  match refererOriginOf (refererHeaderOrNull refererHeader) embedUrl with
  | none => none
  | some refererOrigin =>
    some { url := url
           headers := some [("Referer", refererOrigin ++ "/"),
                            ("Origin", refererOrigin),
                            ("User-Agent", STEALTH_UA)]
           cookies := cookieStringOf snapshot }

/-- Case-sensitive lookup in a header list. -/
def headerLookup (hs : List (String × String)) (k : String) : Option String :=
  (hs.find? fun p => p.1 == k).map Prod.snd

/-- Header lookup through the optional headers map of a result. -/
def resultHeaderLookup (r : ExtractedStream) (k : String) : Option String :=
  r.headers.bind fun hs => headerLookup hs k

/-- The derivation rule exactly as the C5 claim words it: the Origin is
derived from the manifest request's Referer header when that header is
present and parseable as a URL, and otherwise from the embed URL's origin. -/
def refererOriginSpec (refererHeader : Option String) (embedUrl : String) : Option String :=
  match refererHeader with
  | some rs =>
    match parseUrl rs with
    | some u => some (urlOrigin u)
    | none => originOfString embedUrl
  | none => originOfString embedUrl

/-! ## `src/extractor.ts` — program order inside the manifest branch

The first-manifest branch of the route handler (source lines 109–165)
decomposed into its primitive actions in program order, so the position of
the cookie snapshot relative to the abort is visible. -/

inductive ManifestStep
  | checkAndSetResolved
  | clearTimeoutStep
  | readRequestHeaders
  | snapshotCookies
  | abortRequest
  | computeRefererOrigin
  | resolveResult
deriving Repr, DecidableEq

/-- `doExtraction`'s first-manifest branch in program order: mark resolved,
clear the timeout, read the request headers, snapshot cookies from the
still-open context, abort the request, compute the referer origin, resolve
the pipeline. -/
def manifestBranchTrace : List ManifestStep :=
  [.checkAndSetResolved, .clearTimeoutStep, .readRequestHeaders,
   .snapshotCookies, .abortRequest, .computeRefererOrigin, .resolveResult]

/-! ## `src/extractor.ts` — per-extraction event machine

The mutable per-extraction state of `doExtraction`: the `resolved` flag, the
pending timeout timer, and the sequence of resolutions delivered to
`m3u8Promise`.  Events are route-interceptor invocations (with the cookie
snapshot the environment would deliver at that instant) and the timeout timer
firing. -/

structure RouteRequest where
  url : String
  resourceType : String
  refererHeader : Option String
deriving Repr, DecidableEq

structure ExtState where
  resolved : Bool
  timeoutArmed : Bool
  outcomes : List (Option ExtractedStream)
deriving Repr, DecidableEq

/-- Initial per-extraction state: not resolved, timeout timer armed, no
resolution delivered. -/
def extInit : ExtState := { resolved := false, timeoutArmed := true, outcomes := [] }

/-- One route-interceptor invocation (the handler body of `context.route`).
Returns the successor state and whether the request was aborted.  On the
first target manifest: set `resolved`, clear the timeout, snapshot cookies,
abort, and resolve with the constructed result (when the origin computation
does not throw). -/
def routeStep (embedUrl : String) (s : ExtState) (r : RouteRequest)
    (snapshot : Option (List (String × String))) : ExtState × Bool :=
  if isTargetManifest r.url then
    if s.resolved then (s, true)
    else
      match manifestResult r.url r.refererHeader embedUrl snapshot with
      | some str =>
        ({ s with resolved := true, timeoutArmed := false,
                  outcomes := s.outcomes ++ [some str] }, true)
      | none =>
        ({ s with resolved := true, timeoutArmed := false }, true)
  else
    (s, (routeDecision r.url r.resourceType).aborts)

/-- The timeout timer callback: if the timer is still armed and nothing
resolved yet, resolve the extraction with `null` (the timeout outcome). -/
def timeoutStep (s : ExtState) : ExtState :=
  if s.timeoutArmed && !s.resolved then
    { s with resolved := true, outcomes := s.outcomes ++ [none] }
  else s

inductive ExtEvent
  | request (r : RouteRequest) (snapshot : Option (List (String × String)))
  | timeoutFire
deriving Repr, DecidableEq

def extStep (embedUrl : String) (s : ExtState) : ExtEvent → ExtState
  | .request r snap => (routeStep embedUrl s r snap).1
  | .timeoutFire => timeoutStep s

def extRun (embedUrl : String) (s : ExtState) : List ExtEvent → ExtState
  | [] => s
  | e :: es => extRun embedUrl (extStep embedUrl s e) es

/-- An event that resolves the extraction when it is the first to arrive: a
target-manifest request or the timeout firing. -/
def resolvingEvent : ExtEvent → Bool
  | .request r _ => isTargetManifest r.url
  | .timeoutFire => true

/-! ## `src/browserPool.ts` — circuit breaker and browser lifecycle

The pool's mutable fields (`browser`, `launching`, `idleTimer`, `launchTime`,
`activeCount`, `consecutiveFailures`, `circuitOpenUntil`) become a state
record.  Browser handles are identified by numbers; timestamps are
milliseconds.  The driver's `chromium.launch` outcome is an environment
input. -/

namespace BrowserPool

def CIRCUIT_BREAKER_THRESHOLD : Nat := 3
def CIRCUIT_BREAKER_RESET_MS : Nat := 30000
def MAX_AGE_MS : Nat := 7200000

structure PoolState where
  browser : Option Nat
  launching : Bool
  idleTimer : Bool
  launchTime : Nat
  activeCount : Nat
  consecutiveFailures : Nat
  circuitOpenUntil : Nat
deriving Repr, DecidableEq

/-- The pool's initial state (fields as initialised in the class). -/
def initialPool : PoolState :=
  { browser := none, launching := false, idleTimer := false, launchTime := 0,
    activeCount := 0, consecutiveFailures := 0, circuitOpenUntil := 0 }

/-- `isCircuitOpen()`: `circuitOpenUntil > Date.now()`. -/
def isCircuitOpen (s : PoolState) (now : Nat) : Bool := decide (s.circuitOpenUntil > now)

/-- The remaining cool-down in seconds carried by the circuit-open error:
`Math.ceil((circuitOpenUntil - Date.now()) / 1000)`. -/
def circuitWaitSecs (s : PoolState) (now : Nat) : Nat :=
  (s.circuitOpenUntil - now + 999) / 1000

/-- The circuit-open error message thrown by `getBrowser`. -/
def circuitOpenMessage (waitSecs : Nat) : String :=
  "Circuit breaker open, retry in " ++ toString waitSecs ++ "s"

/-- The outcome the driver produces for a `chromium.launch` call. -/
inductive LaunchOutcome
  | success (handle : Nat)
  | failure (msg : String)
deriving Repr, DecidableEq

/-- What an acquisition (`getBrowser`) returns. -/
inductive AcquireResult
  | circuitOpenError (retryInSecs : Nat)
  | reused (handle : Nat)
  | launched (handle : Nat)
  | launchFailed (msg : String)
  | awaitedExistingLaunch
deriving Repr, DecidableEq

/-- `launchBrowserWithCircuitBreaker` plus the body of `launchBrowser`:
records `launchTime` at the start of the launch, then on success resets the
breaker (`consecutiveFailures ← 0`, `circuitOpenUntil ← 0`) and stores the
handle; on failure increments `consecutiveFailures` and, once the threshold
is reached, opens the circuit for `CIRCUIT_BREAKER_RESET_MS`. -/
def launchWithCircuitBreaker (s : PoolState) (now : Nat) (out : LaunchOutcome) :
    PoolState × AcquireResult :=
  match out with
  | .success h =>
    ({ s with launchTime := now, browser := some h,
              consecutiveFailures := 0, circuitOpenUntil := 0 }, .launched h)
  | .failure msg =>
    let f := s.consecutiveFailures + 1
    ({ s with launchTime := now, consecutiveFailures := f,
              circuitOpenUntil :=
                if CIRCUIT_BREAKER_THRESHOLD ≤ f then now + CIRCUIT_BREAKER_RESET_MS
                else s.circuitOpenUntil },
     .launchFailed msg)

/-- The launch portion of `getBrowser`: share an in-flight launch, otherwise
start one through the circuit breaker. -/
def launchPath (s : PoolState) (now : Nat) (out : LaunchOutcome) :
    PoolState × AcquireResult × Bool :=
  if s.launching then (s, .awaitedExistingLaunch, false)
  else
    let (s', r) := launchWithCircuitBreaker s now out
    (s', r, true)

/-- `getBrowser()`: fail fast while the circuit is open; reuse a connected
handle unless its age exceeds `MAX_AGE_MS` with no active extraction (then
restart — null the handle — and relaunch); drop a disconnected handle and
relaunch.  The final `Bool` reports whether a launch was attempted. -/
def getBrowser (s : PoolState) (now : Nat) (connected : Bool) (out : LaunchOutcome) :
    PoolState × AcquireResult × Bool :=
  if isCircuitOpen s now then
    (s, .circuitOpenError (circuitWaitSecs s now), false)
  else
    match s.browser with
    | some h =>
      if connected then
        if now - s.launchTime > MAX_AGE_MS && s.activeCount = 0 then
          launchPath { s with browser := none, idleTimer := false } now out
        else (s, .reused h, false)
      else launchPath { s with browser := none } now out
    | none => launchPath s now out

/-- The `disconnected` handler registered at launch: null the pool's
reference only when the disconnected handle is still the current one. -/
def onDisconnected (s : PoolState) (h : Nat) : PoolState :=
  if s.browser = some h then { s with browser := none } else s

/-! ### Restart protocol micro-steps (for the ordering claims)

`restartBrowser` and `close` are decomposed into their primitive effects in
program order, so that ordering between the handle-null and the old handle's
close is visible, and so that an interleaved acquisition can be examined at
the point where the close has been initiated but has not completed. -/

inductive MicroStep
  | clearIdleTimerStep
  | setBrowserNull
  | beginClose (h : Nat)
  | endClose (h : Nat) (ok : Bool)
  | beginLaunch
deriving Repr, DecidableEq

/-- Effect of one micro-step on the pool state.  `beginClose`/`endClose` act
on the browser process, not on pool fields; a failed close (`ok = false`) is
swallowed (`.catch(() => {})`) and also leaves the state unchanged. -/
def applyMicro (s : PoolState) : MicroStep → PoolState
  | .clearIdleTimerStep => { s with idleTimer := false }
  | .setBrowserNull => { s with browser := none }
  | .beginClose _ => s
  | .endClose _ _ => s
  | .beginLaunch => { s with launching := true }

def applyMicroList (s : PoolState) : List MicroStep → PoolState
  | [] => s
  | m :: ms => applyMicroList (applyMicro s m) ms

/-- `restartBrowser()` in program order: clear the idle timer; if a handle
exists, null the reference FIRST, then close the old handle (its completion
`endClose` may fail; either way errors are swallowed). -/
def restartTrace (s : PoolState) (ok : Bool) : List MicroStep :=
  .clearIdleTimerStep ::
    (match s.browser with
     | some h => [.setBrowserNull, .beginClose h, .endClose h ok]
     | none => [])

/-- `close()` (shutdown) in program order — the same null-first protocol. -/
def shutdownTrace (s : PoolState) (ok : Bool) : List MicroStep :=
  .clearIdleTimerStep ::
    (match s.browser with
     | some h => [.setBrowserNull, .beginClose h, .endClose h ok]
     | none => [])

end BrowserPool

/-! ## `src/browserPool.ts` — `withLimit` / the PQueue task queue

`withLimit(fn, priority)` submits to `new PQueue({ concurrency:
MAX_CONCURRENT })` with `{ priority }`.  `p-queue` is an external library,
modelled from its documented contract: at most `concurrency` tasks run at
once, higher priority starts first, FIFO (insertion order) within a
priority.  Enqueue-time order is the monotone sequence number `seq`. -/

namespace PoolQueue

structure Task where
  id : Nat
  priority : Int
  seq : Nat
deriving Repr, DecidableEq

structure QueueState where
  maxConcurrent : Nat
  pending : List Task
  running : List Task
  nextSeq : Nat
deriving Repr, DecidableEq

def initialQueue (maxConcurrent : Nat) : QueueState :=
  { maxConcurrent := maxConcurrent, pending := [], running := [], nextSeq := 0 }

/-- Strict scheduling precedence: higher priority first, earlier enqueue
(smaller `seq`) within equal priority. -/
def Task.precedes (a b : Task) : Bool :=
  a.priority > b.priority || (a.priority = b.priority && a.seq < b.seq)

/-- The pending task the queue starts next. -/
def selectBest : List Task → Option Task
  | [] => none
  | t :: ts =>
    match selectBest ts with
    | none => some t
    | some u => if Task.precedes u t then some u else some t

inductive QEvent
  | enqueue (id : Nat) (priority : Int)
  | start
  | complete (id : Nat)
deriving Repr, DecidableEq

/-- Queue transition: `enqueue` appends a pending task stamped with the next
sequence number; `admit` starts the best pending task when a concurrency
slot is free; `complete` removes a running task. -/
def qstep (s : QueueState) : QEvent → QueueState
  | .enqueue id p =>
    { s with pending := s.pending ++ [{ id := id, priority := p, seq := s.nextSeq }],
             nextSeq := s.nextSeq + 1 }
  | .start =>
    if s.running.length < s.maxConcurrent then
      match selectBest s.pending with
      | some t => { s with pending := s.pending.erase t, running := s.running ++ [t] }
      | none => s
    else s
  | .complete id =>
    { s with running := s.running.filter fun t => t.id != id }

def qrun (s : QueueState) : List QEvent → QueueState
  | [] => s
  | e :: es => qrun (qstep s e) es

end PoolQueue

/-! ## `src/routes/extract.ts` — the POST /extract handler -/

namespace ExtractRoute

/-- The `ERROR_TYPES` labels the route attaches to the extraction counter. -/
inductive ErrorType
  | noError | timeoutError | circuitOpenError | browserError
deriving Repr, DecidableEq

def errorTypeLabel : ErrorType → String
  | .noError => "none"
  | .timeoutError => "timeout"
  | .circuitOpenError => "circuit_open"
  | .browserError => "browser_error"

/-- `PRIORITY_LEVELS = { normal: 0, high: 10 }`. -/
def PRIORITY_LEVELS : String → Option Int
  | "normal" => some 0
  | "high" => some 10
  | _ => none

/-- `PRIORITY_LEVELS[priorityParam ?? 'normal'] ?? PRIORITY_LEVELS.normal`. -/
def routePriority (priorityParam : Option String) : Int :=
  (PRIORITY_LEVELS (priorityParam.getD "normal")).getD 0

structure HttpResponse where
  status : Nat
  success : Bool
  error : Option String
  payload : Option ExtractedStream
deriving Repr, DecidableEq

/-- One `extractionsTotal.inc({status, error_type})` observation. -/
structure MetricInc where
  status : String
  errorType : String
deriving Repr, DecidableEq

/-- The route's error classification:
`errorMessage.includes('Circuit breaker') ? circuit_open : browser_error`. -/
def classifyError (msg : String) : ErrorType :=
  if strContains msg "Circuit breaker" then .circuitOpenError else .browserError

/-- The outcome branch of the handler after `await extractM3u8(...)`:
`.ok none` = no manifest (responds 200 `{success:false}`, counted
`failure/timeout`); `.ok (some _)` = success (200, counted `success/none`);
`.error msg` = the await rejected (responds 503 with the error message,
counted `failure/<classified>`). -/
def extractHandlerOutcome (outcome : Except String (Option ExtractedStream)) :
    HttpResponse × MetricInc :=
  match outcome with
  | .ok none =>
    ({ status := 200, success := false, error := some "m3u8 extraction failed",
       payload := none },
     { status := "failure", errorType := "timeout" })
  | .ok (some ex) =>
    ({ status := 200, success := true, error := none, payload := some ex },
     { status := "success", errorType := "none" })
  | .error msg =>
    ({ status := 503, success := false, error := some msg, payload := none },
     { status := "failure", errorType := errorTypeLabel (classifyError msg) })

end ExtractRoute

/-! ## Missing current `extractor.ts` — spec-modelled pipeline boundary

`routes/extract.ts` calls `extractM3u8(embedUrl, timeout, priority,
queueEnqueueTime)` and its tests assert that call shape and that pool errors
reject the awaited promise; the `extractor.ts` revision bundled under `src/`
still has the earlier two-parameter signature, so the current pipeline entry
point is modelled from the spec (§4.2, §7). -/

/-- A pool or driver failure surfacing from an extraction. -/
inductive PoolError
  | circuitOpenRejection (retryInSecs : Nat)
  | driverFailure (msg : String)
deriving Repr, DecidableEq

/-- The message the requester sees for a pool failure: the breaker's
structured message for a circuit-open rejection, the driver's message
otherwise. -/
def poolErrorMessage : PoolError → String
  | .circuitOpenRejection secs => BrowserPool.circuitOpenMessage secs
  | .driverFailure msg => msg

/-- Modelled from the spec: the current `extractM3u8(embedUrl, timeoutMs,
priority, enqueueTime)` is missing from `src/`; per §4.2 step 1 it submits
the extraction through the Pool with the given priority.  This definition
records the priority carried by that submission. -/
def extractM3u8SubmitPriority (embedUrl : String) (timeoutMs : Nat) (priority : Int)
    (enqueueTime : Nat) : Int := priority

/-- Modelled from the spec: the current `extractM3u8` is missing from `src/`;
per the §4.2 public contract (`ExtractionResult | Timeout | Error`) and the
§7 taxonomy, a CircuitOpen or BrowserError failure rejects the promise the
route awaits with the failure's message, while a missing manifest resolves
with the Timeout outcome `null`. -/
def extractM3u8Outcome : Except PoolError (Option ExtractedStream) →
    Except String (Option ExtractedStream)
  | .error e => .error (poolErrorMessage e)
  | .ok r => .ok r

/-! ## Helper lemmas -/

theorem str_data_append (a b : String) : (a ++ b).data = a.data ++ b.data := rfl

theorem charsPrefix_weaken {p q : List Char} (r : List Char)
    (h : charsPrefix p q = true) : charsPrefix p (q ++ r) = true := by
  induction p generalizing q with
  | nil => rfl
  | cons a as ih =>
    cases q with
    | nil => simp [charsPrefix] at h
    | cons b bs =>
      simp only [charsPrefix, Bool.and_eq_true, decide_eq_true_eq] at h ⊢
      exact ⟨h.1, ih h.2⟩

/-- The breaker's structured error message always contains the substring the
route's classifier tests for. -/
theorem circuitOpenMessage_contains (secs : Nat) :
    strContains (BrowserPool.circuitOpenMessage secs) "Circuit breaker" = true := by
  unfold BrowserPool.circuitOpenMessage strContains
  rw [str_data_append, str_data_append]
  apply charsSub_of_charsPrefix
  rw [List.append_assoc]
  apply charsPrefix_weaken
  decide

theorem strEndsWithLit_append_slash (o : String) : strEndsWithLit (o ++ "/") "/" = true := by
  have hd : (o ++ "/").data = o.data ++ ['/'] := rfl
  simp [strEndsWithLit, charsSuffix, hd, charsPrefix]

namespace PoolQueue

/-- A nonempty pending list always yields a selection. -/
theorem selectBest_cons_isSome (a : Task) (as : List Task) :
    (selectBest (a :: as)).isSome = true := by
  unfold selectBest
  cases selectBest as with
  | none => rfl
  | some u =>
    dsimp only
    by_cases hp : Task.precedes u a = true <;> simp [hp]

/-- The selected task is a member of the pending list. -/
theorem selectBest_mem {l : List Task} {t : Task} (h : selectBest l = some t) : t ∈ l := by
  induction l generalizing t with
  | nil => simp [selectBest] at h
  | cons a as ih =>
    unfold selectBest at h
    cases hs : selectBest as with
    | none =>
      rw [hs] at h
      dsimp only at h
      simp only [Option.some.injEq] at h
      simp [← h]
    | some u =>
      rw [hs] at h
      dsimp only at h
      by_cases hp : Task.precedes u a = true
      · rw [if_pos hp] at h
        simp only [Option.some.injEq] at h
        subst h
        exact List.mem_cons_of_mem a (ih hs)
      · rw [if_neg hp] at h
        simp only [Option.some.injEq] at h
        simp [← h]

/-- `t` scheduling-dominates `u`: no lower priority, and no later enqueue at
equal priority. -/
def dominates (t u : Task) : Prop :=
  u.priority ≤ t.priority ∧ (t.priority = u.priority → t.seq ≤ u.seq)

theorem dominates_refl (t : Task) : dominates t t := ⟨le_refl _, fun _ => le_refl _⟩

/-- The selected task dominates every pending task. -/
theorem selectBest_dominates {l : List Task} {t : Task} (h : selectBest l = some t) :
    ∀ u ∈ l, dominates t u := by
  induction l generalizing t with
  | nil => simp [selectBest] at h
  | cons a as ih =>
    unfold selectBest at h
    cases hs : selectBest as with
    | none =>
      rw [hs] at h
      dsimp only at h
      simp only [Option.some.injEq] at h
      subst h
      intro u hu
      rcases List.mem_cons.mp hu with h' | h'
      · subst h'; exact dominates_refl _
      · exfalso
        cases as with
        | nil => simp at h'
        | cons b bs =>
          have hne := selectBest_cons_isSome b bs
          rw [hs] at hne
          simp at hne
    | some u =>
      rw [hs] at h
      dsimp only at h
      by_cases hp : Task.precedes u a = true
      · rw [if_pos hp] at h
        simp only [Option.some.injEq] at h
        subst h
        intro v hv
        rcases List.mem_cons.mp hv with h' | h'
        · subst h'
          simp only [Task.precedes, Bool.or_eq_true, decide_eq_true_eq,
            Bool.and_eq_true] at hp
          rcases hp with h1 | ⟨h1, h2⟩
          · exact ⟨le_of_lt h1, fun he => by omega⟩
          · exact ⟨le_of_eq h1.symm, fun _ => le_of_lt h2⟩
        · exact ih hs v h'
      · rw [if_neg hp] at h
        simp only [Option.some.injEq] at h
        subst h
        intro v hv
        simp only [Task.precedes, Bool.or_eq_true, decide_eq_true_eq,
          Bool.and_eq_true] at hp
        push_neg at hp
        obtain ⟨hp1, hp2⟩ := hp
        rcases List.mem_cons.mp hv with h' | h'
        · subst h'; exact dominates_refl _
        · obtain ⟨hd1, hd2⟩ := ih hs v h'
          refine ⟨by omega, fun he => ?_⟩
          have h3 : u.priority = a.priority := by omega
          have h4 := hp2 h3
          have h5 := hd2 (by omega)
          omega

/-- `qstep` never changes the concurrency bound. -/
theorem qstep_maxConcurrent (s : QueueState) (e : QEvent) :
    (qstep s e).maxConcurrent = s.maxConcurrent := by
  cases e with
  | enqueue id p => rfl
  | start =>
    unfold qstep
    by_cases hr : s.running.length < s.maxConcurrent
    · rw [if_pos hr]
      cases selectBest s.pending <;> rfl
    · rw [if_neg hr]
  | complete id => rfl

/-- `qstep` preserves the concurrency bound on running tasks. -/
theorem qstep_bound {s : QueueState} (h : s.running.length ≤ s.maxConcurrent) (e : QEvent) :
    (qstep s e).running.length ≤ (qstep s e).maxConcurrent := by
  rw [qstep_maxConcurrent]
  cases e with
  | enqueue id p => exact h
  | start =>
    unfold qstep
    by_cases hr : s.running.length < s.maxConcurrent
    · rw [if_pos hr]
      cases selectBest s.pending with
      | none => exact h
      | some t => simpa using hr
    · rw [if_neg hr]; exact h
  | complete id =>
    calc (s.running.filter fun t => t.id != id).length
        ≤ s.running.length := List.length_filter_le _ _
      _ ≤ s.maxConcurrent := h

theorem qrun_bound {s : QueueState} (h : s.running.length ≤ s.maxConcurrent)
    (evs : List QEvent) : (qrun s evs).running.length ≤ (qrun s evs).maxConcurrent := by
  induction evs generalizing s with
  | nil => exact h
  | cons e es ih => exact ih (qstep_bound h e)

theorem qrun_maxConcurrent (s : QueueState) (evs : List QEvent) :
    (qrun s evs).maxConcurrent = s.maxConcurrent := by
  induction evs generalizing s with
  | nil => rfl
  | cons e es ih => rw [qrun, ih, qstep_maxConcurrent]

end PoolQueue

namespace ExtrInv

/-- Invariant of the per-extraction machine: at most one resolution, and
before resolution nothing was delivered and the timeout is still armed. -/
def ExtInv (s : ExtState) : Prop :=
  s.outcomes.length ≤ 1 ∧ (s.resolved = false → s.outcomes = [] ∧ s.timeoutArmed = true)

theorem extInit_inv : ExtInv extInit := by
  constructor <;> simp [extInit]

/-- Once resolved, every later event leaves the extraction state unchanged. -/
theorem extStep_of_resolved {s : ExtState} (h : s.resolved = true)
    (embedUrl : String) (e : ExtEvent) : extStep embedUrl s e = s := by
  cases e with
  | request r snap =>
    unfold extStep routeStep
    by_cases ht : isTargetManifest r.url = true
    · simp [ht, h]
    · simp [ht]
  | timeoutFire =>
    unfold extStep timeoutStep
    simp [h]

theorem extRun_of_resolved {s : ExtState} (h : s.resolved = true)
    (embedUrl : String) (evs : List ExtEvent) : extRun embedUrl s evs = s := by
  induction evs with
  | nil => rfl
  | cons e es ih => rw [extRun, extStep_of_resolved h, ih]

theorem extStep_inv {s : ExtState} (hinv : ExtInv s) (embedUrl : String) (e : ExtEvent) :
    ExtInv (extStep embedUrl s e) := by
  by_cases h : s.resolved = true
  · rw [extStep_of_resolved h]; exact hinv
  · have hres : s.resolved = false := by
      cases hb : s.resolved
      · rfl
      · exact absurd hb h
    obtain ⟨hout, harmed⟩ := (hinv.2 hres)
    cases e with
    | request r snap =>
      unfold extStep routeStep
      by_cases ht : isTargetManifest r.url = true
      · simp only [ht, if_true, hres, Bool.false_eq_true, if_false, reduceIte]
        cases hm : manifestResult r.url r.refererHeader embedUrl snap with
        | none => constructor <;> simp [hout]
        | some str => constructor <;> simp [hout]
      · simp only [ht]
        constructor <;> simp [hinv.1, hres, hout, harmed]
    | timeoutFire =>
      unfold extStep timeoutStep
      simp only [harmed, hres, Bool.not_false, Bool.and_self, if_true, reduceIte]
      constructor <;> simp [hout]

theorem extRun_inv {s : ExtState} (hinv : ExtInv s) (embedUrl : String)
    (evs : List ExtEvent) : ExtInv (extRun embedUrl s evs) := by
  induction evs generalizing s with
  | nil => exact hinv
  | cons e es ih => exact ih (extStep_inv hinv embedUrl e)

/-- When the embed URL parses, the m3u8 branch always produces a result (the
fallback origin computation cannot throw). -/
theorem manifestResult_isSome {embedUrl : String} (hp : (parseUrl embedUrl).isSome = true)
    (url : String) (refHdr : Option String) (snapshot : Option (List (String × String))) :
    (manifestResult url refHdr embedUrl snapshot).isSome = true := by
  obtain ⟨u, hu⟩ := Option.isSome_iff_exists.mp hp
  unfold manifestResult refererOriginOf
  cases hrh : refererHeaderOrNull refHdr with
  | none => simp [hrh, hu]
  | some r =>
    cases hr : parseUrl r with
    | none => simp [hrh, hr, hu]
    | some v => simp [hrh, hr]

/-- Processing a resolving event from an unresolved (invariant) state sets
`resolved`. -/
theorem resolved_after_resolving {s : ExtState} (hinv : ExtInv s) {e : ExtEvent}
    (he : resolvingEvent e = true) (embedUrl : String) :
    (extStep embedUrl s e).resolved = true := by
  by_cases h : s.resolved = true
  · rw [extStep_of_resolved h]; exact h
  · have hres : s.resolved = false := by
      cases hb : s.resolved
      · rfl
      · exact absurd hb h
    have harmed := (hinv.2 hres).2
    cases e with
    | request r snap =>
      have ht : isTargetManifest r.url = true := he
      unfold extStep routeStep
      simp only [ht, if_true, hres, Bool.false_eq_true, if_false, reduceIte]
      cases manifestResult r.url r.refererHeader embedUrl snap <;> simp
    | timeoutFire =>
      unfold extStep timeoutStep
      simp [harmed, hres]

/-- Strengthened invariant under a parseable embed URL: resolution delivers
exactly one outcome. -/
def ExtInvP (embedUrl : String) (s : ExtState) : Prop :=
  ExtInv s ∧ (s.resolved = true → s.outcomes.length = 1)

theorem extInit_invP (embedUrl : String) : ExtInvP embedUrl extInit :=
  ⟨extInit_inv, by simp [extInit]⟩

theorem extStep_invP {embedUrl : String} (hp : (parseUrl embedUrl).isSome = true)
    {s : ExtState} (hinv : ExtInvP embedUrl s) (e : ExtEvent) :
    ExtInvP embedUrl (extStep embedUrl s e) := by
  refine ⟨extStep_inv hinv.1 embedUrl e, ?_⟩
  by_cases h : s.resolved = true
  · rw [extStep_of_resolved h]
    exact hinv.2
  · have hres : s.resolved = false := by
      cases hb : s.resolved
      · rfl
      · exact absurd hb h
    obtain ⟨hout, harmed⟩ := hinv.1.2 hres
    intro hres'
    cases e with
    | request r snap =>
      by_cases ht : isTargetManifest r.url = true
      · have hm := manifestResult_isSome hp r.url r.refererHeader snap
        obtain ⟨str, hstr⟩ := Option.isSome_iff_exists.mp hm
        unfold extStep routeStep
        simp [ht, hres, hstr, hout]
      · unfold extStep routeStep at hres' ⊢
        simp only [ht, Bool.false_eq_true, if_false, reduceIte] at hres'
        exact absurd hres' (by simp [hres])
    | timeoutFire =>
      unfold extStep timeoutStep
      simp [harmed, hres, hout]

theorem extRun_exactly_one {embedUrl : String} (hp : (parseUrl embedUrl).isSome = true)
    {s : ExtState} (hinv : ExtInvP embedUrl s) {evs : List ExtEvent}
    (hres : ∃ e ∈ evs, resolvingEvent e = true) :
    (extRun embedUrl s evs).outcomes.length = 1 := by
  induction evs generalizing s with
  | nil => simp at hres
  | cons e es ih =>
    by_cases he : resolvingEvent e = true
    · have h1 : (extStep embedUrl s e).resolved = true :=
        resolved_after_resolving hinv.1 he embedUrl
      have h2 := extStep_invP hp hinv e
      rw [extRun, extRun_of_resolved h1]
      exact h2.2 h1
    · rcases hres with ⟨e', he', hre'⟩
      rcases List.mem_cons.mp he' with h' | h'
      · exact absurd (h' ▸ hre') he
      · exact ih (extStep_invP hp hinv e) ⟨e', h', hre'⟩

end ExtrInv

/-- Any origin the m3u8 branch computes is the origin of some URL the parser
accepted. -/
theorem refererOriginOf_shape {x : Option String} {embedUrl : String} {o : String}
    (h : refererOriginOf x embedUrl = some o) :
    ∃ (s : String) (u : Url), parseUrl s = some u ∧ o = urlOrigin u := by
  unfold refererOriginOf at h
  cases x with
  | none =>
    obtain ⟨u, hu, ho⟩ := Option.map_eq_some'.mp h
    exact ⟨embedUrl, u, hu, ho.symm⟩
  | some rs =>
    dsimp only at h
    cases hr : parseUrl rs with
    | some u =>
      rw [hr] at h
      simp only [Option.some.injEq] at h
      exact ⟨rs, u, hr, h.symm⟩
    | none =>
      rw [hr] at h
      obtain ⟨u, hu, ho⟩ := Option.map_eq_some'.mp h
      exact ⟨embedUrl, u, hu, ho.symm⟩

/-- The source's referer-origin computation coincides with the claim's
derivation rule. -/
theorem refererOriginOf_eq_spec (x : Option String) (embedUrl : String) :
    refererOriginOf x embedUrl = refererOriginSpec x embedUrl := by
  cases x <;> rfl

theorem cookieStringOf_isSome (snapshot : Option (List (String × String))) :
    ((cookieStringOf snapshot).isSome = true ↔ ∃ l, snapshot = some l ∧ l ≠ []) := by
  cases snapshot with
  | none => simp [cookieStringOf]
  | some l =>
    cases l with
    | nil => simp [cookieStringOf]
    | cons c cs => simp [cookieStringOf]

/-! ## Claim theorems -/

/-- An acquisition from a state with no handle, no launch in flight and a
closed circuit always proceeds to a launch attempt. -/
theorem getBrowser_attempts_launch {s : BrowserPool.PoolState} {now : Nat}
    (hb : s.browser = none) (hl : s.launching = false)
    (hc : s.circuitOpenUntil ≤ now) (conn : Bool) (out : BrowserPool.LaunchOutcome) :
    (BrowserPool.getBrowser s now conn out).2.2 = true := by
  have hco : BrowserPool.isCircuitOpen s now = false := by
    simp [BrowserPool.isCircuitOpen]; omega
  cases out <;>
    simp [BrowserPool.getBrowser, hco, hb, BrowserPool.launchPath, hl,
      BrowserPool.launchWithCircuitBreaker]

/-- C3: the circuit breaker of `browserPool.ts` behaves as claimed: a launch
success resets `consecutiveFailures` to 0 and closes the circuit
(`circuitOpenUntil = 0`); each launch failure increments
`consecutiveFailures`, and when it reaches 3 the circuit opens for 30
seconds; while open, every acquisition fails fast with the remaining
cool-down in seconds, without attempting a launch and without changing any
counter; after the cool-down elapses the next acquisition attempts a launch
again. -/
theorem circuit_breaker_state_machine
    (s : BrowserPool.PoolState) (now : Nat) (conn : Bool) (h : Nat) (msg : String) :
    (s.circuitOpenUntil ≤ now → s.browser = none → s.launching = false →
      ((BrowserPool.getBrowser s now conn (.success h)).1.consecutiveFailures = 0 ∧
       (BrowserPool.getBrowser s now conn (.success h)).1.circuitOpenUntil = 0 ∧
       (BrowserPool.getBrowser s now conn (.success h)).2.1 = .launched h)) ∧
    (s.circuitOpenUntil ≤ now → s.browser = none → s.launching = false →
      (BrowserPool.getBrowser s now conn (.failure msg)).1.consecutiveFailures =
        s.consecutiveFailures + 1) ∧
    (s.circuitOpenUntil ≤ now → s.browser = none → s.launching = false →
      s.consecutiveFailures = 2 →
      (BrowserPool.getBrowser s now conn (.failure msg)).1.circuitOpenUntil =
        now + 30000) ∧
    (∀ out : BrowserPool.LaunchOutcome, now < s.circuitOpenUntil →
      BrowserPool.getBrowser s now conn out =
        (s, .circuitOpenError ((s.circuitOpenUntil - now + 999) / 1000), false)) ∧
    (∀ out : BrowserPool.LaunchOutcome,
      s.circuitOpenUntil ≤ now → s.browser = none → s.launching = false →
      (BrowserPool.getBrowser s now conn out).2.2 = true) := by
  refine ⟨?_, ?_, ?_, ?_, ?_⟩
  · intro hc hb hl
    have hco : BrowserPool.isCircuitOpen s now = false := by
      simp [BrowserPool.isCircuitOpen]; omega
    simp [BrowserPool.getBrowser, hco, hb, BrowserPool.launchPath, hl,
      BrowserPool.launchWithCircuitBreaker]
  · intro hc hb hl
    have hco : BrowserPool.isCircuitOpen s now = false := by
      simp [BrowserPool.isCircuitOpen]; omega
    simp [BrowserPool.getBrowser, hco, hb, BrowserPool.launchPath, hl,
      BrowserPool.launchWithCircuitBreaker]
  · intro hc hb hl hcf
    have hco : BrowserPool.isCircuitOpen s now = false := by
      simp [BrowserPool.isCircuitOpen]; omega
    simp [BrowserPool.getBrowser, hco, hb, BrowserPool.launchPath, hl,
      BrowserPool.launchWithCircuitBreaker, hcf,
      BrowserPool.CIRCUIT_BREAKER_THRESHOLD, BrowserPool.CIRCUIT_BREAKER_RESET_MS]
  · intro out hc
    have hco : BrowserPool.isCircuitOpen s now = true := by
      simp [BrowserPool.isCircuitOpen]; omega
    simp [BrowserPool.getBrowser, hco, BrowserPool.circuitWaitSecs]
  · intro out hc hb hl
    exact getBrowser_attempts_launch hb hl hc conn out

/-- Witness for C3: a concrete breaker run — a third failure at time 1000
opens the circuit until 31000; an acquisition at time 1500 fails fast with a
30-second cool-down and an untouched state; at time 31000 the next
acquisition attempts a launch; a success resets the counters. -/
theorem circuit_breaker_state_machine_witness :
    ((BrowserPool.getBrowser
        { BrowserPool.initialPool with consecutiveFailures := 2 } 1000 true
        (.failure "boom")).1.circuitOpenUntil = 31000) ∧
    (BrowserPool.getBrowser
        { BrowserPool.initialPool with consecutiveFailures := 3, circuitOpenUntil := 31000 }
        1500 true (.success 1) =
      ({ BrowserPool.initialPool with consecutiveFailures := 3, circuitOpenUntil := 31000 },
       .circuitOpenError 30, false)) ∧
    ((BrowserPool.getBrowser
        { BrowserPool.initialPool with consecutiveFailures := 3, circuitOpenUntil := 31000 }
        31000 true (.success 1)).2.2 = true) ∧
    ((BrowserPool.getBrowser
        { BrowserPool.initialPool with consecutiveFailures := 3, circuitOpenUntil := 31000 }
        31000 true (.success 1)).1.consecutiveFailures = 0) := by
  refine ⟨?_, ?_, ?_, ?_⟩
  · have := (circuit_breaker_state_machine
      { BrowserPool.initialPool with consecutiveFailures := 2 } 1000 true 1 "boom").2.2.1
    exact this (by decide) (by decide) (by decide) (by decide)
  · have := (circuit_breaker_state_machine
      { BrowserPool.initialPool with consecutiveFailures := 3, circuitOpenUntil := 31000 }
      1500 true 1 "boom").2.2.2.1
    exact this (.success 1) (by decide)
  · have := (circuit_breaker_state_machine
      { BrowserPool.initialPool with consecutiveFailures := 3, circuitOpenUntil := 31000 }
      31000 true 1 "boom").2.2.2.2
    exact this (.success 1) (by decide) (by decide) (by decide)
  · have := (circuit_breaker_state_machine
      { BrowserPool.initialPool with consecutiveFailures := 3, circuitOpenUntil := 31000 }
      31000 true 1 "boom").1
    exact (this (by decide) (by decide) (by decide)).1

/-- C10: the `disconnected` handler registered at launch nulls the pool's
browser reference only when the disconnected handle is still the pool's
current handle; a late disconnect event from an already-replaced handle
leaves the newer live handle's reference intact. -/
theorem disconnect_handler_current_only (s : BrowserPool.PoolState) (h h' : Nat) :
    (s.browser = some h → (BrowserPool.onDisconnected s h).browser = none) ∧
    (s.browser = some h' → h' ≠ h → BrowserPool.onDisconnected s h = s) := by
  constructor
  · intro hb
    simp [BrowserPool.onDisconnected, hb]
  · intro hb hne
    have hnb : ¬(s.browser = some h) := by
      rw [hb]
      intro he
      exact hne (Option.some.inj he)
    simp [BrowserPool.onDisconnected, hnb]

/-- Witness for C10: disconnecting the current handle 1 nulls the reference;
a late disconnect of the stale handle 2 leaves handle 1 in place. -/
theorem disconnect_handler_current_only_witness :
    (BrowserPool.onDisconnected
      { BrowserPool.initialPool with browser := some 1 } 1).browser = none ∧
    BrowserPool.onDisconnected
      { BrowserPool.initialPool with browser := some 1 } 2 =
      { BrowserPool.initialPool with browser := some 1 } :=
  ⟨(disconnect_handler_current_only
      { BrowserPool.initialPool with browser := some 1 } 1 1).1 rfl,
   (disconnect_handler_current_only
      { BrowserPool.initialPool with browser := some 1 } 2 1).2 rfl (by decide)⟩

/-- C6: every restart (idle and max-age via `restartBrowser`, shutdown via
`close`) nulls the pool's handle reference before the old handle's close is
initiated; close errors are swallowed (the resulting pool state is identical
whether the close succeeds or fails); at the point where the close has begun
but not completed, a fresh acquisition already proceeds to a launch attempt
(the close is background work, never a prerequisite of relaunch); and the
restart itself contains no launch step. -/
theorem restart_null_first_background_close
    (s : BrowserPool.PoolState) (h : Nat) (ok : Bool) (now : Nat)
    (out : BrowserPool.LaunchOutcome)
    (hb : s.browser = some h) (hcirc : s.circuitOpenUntil ≤ now)
    (hl : s.launching = false) :
    BrowserPool.restartTrace s ok =
      [.clearIdleTimerStep, .setBrowserNull, .beginClose h, .endClose h ok] ∧
    (BrowserPool.applyMicroList s
      [.clearIdleTimerStep, .setBrowserNull]).browser = none ∧
    (BrowserPool.getBrowser
      (BrowserPool.applyMicroList s
        [.clearIdleTimerStep, .setBrowserNull, .beginClose h]) now true out).2.2 = true ∧
    BrowserPool.applyMicroList s (BrowserPool.restartTrace s true) =
      BrowserPool.applyMicroList s (BrowserPool.restartTrace s false) ∧
    BrowserPool.MicroStep.beginLaunch ∉ BrowserPool.restartTrace s ok ∧
    BrowserPool.shutdownTrace s ok = BrowserPool.restartTrace s ok := by
  have hco : BrowserPool.isCircuitOpen s now = false := by
    simp [BrowserPool.isCircuitOpen]; omega
  refine ⟨?_, ?_, ?_, ?_, ?_, ?_⟩
  · simp [BrowserPool.restartTrace, hb]
  · rfl
  · have hb2 : (BrowserPool.applyMicroList s
        [.clearIdleTimerStep, .setBrowserNull, .beginClose h]).browser = none := rfl
    have hl2 : (BrowserPool.applyMicroList s
        [.clearIdleTimerStep, .setBrowserNull, .beginClose h]).launching = false := hl
    have hc2 : (BrowserPool.applyMicroList s
        [.clearIdleTimerStep, .setBrowserNull, .beginClose h]).circuitOpenUntil ≤ now := hcirc
    exact getBrowser_attempts_launch hb2 hl2 hc2 true out
  · simp [BrowserPool.restartTrace, hb, BrowserPool.applyMicroList, BrowserPool.applyMicro]
  · simp [BrowserPool.restartTrace, hb]
  · simp [BrowserPool.shutdownTrace, BrowserPool.restartTrace]

/-- Witness for C6: a concrete restart of handle 7 on a pool with a closed
circuit — the mid-restart state has no handle, and an acquisition interleaved
before the close completes attempts a launch. -/
theorem restart_null_first_background_close_witness :
    (BrowserPool.applyMicroList { BrowserPool.initialPool with browser := some 7 }
      [.clearIdleTimerStep, .setBrowserNull]).browser = none ∧
    (BrowserPool.getBrowser
      (BrowserPool.applyMicroList { BrowserPool.initialPool with browser := some 7 }
        [.clearIdleTimerStep, .setBrowserNull, .beginClose 7]) 0 true
      (.success 8)).2.2 = true ∧
    BrowserPool.MicroStep.beginLaunch ∉
      BrowserPool.restartTrace { BrowserPool.initialPool with browser := some 7 } true := by
  have ht := restart_null_first_background_close
    { BrowserPool.initialPool with browser := some 7 } 7 true 0 (.success 8)
    rfl (by decide) rfl
  exact ⟨ht.2.1, ht.2.2.1, ht.2.2.2.2.1⟩

/-- C4: the pool's queue admits at most `MAX_CONCURRENT` tasks
simultaneously; an `admit` from a state with a free slot starts exactly the
scheduling-maximal pending task (priority descending, FIFO by enqueue order
within a priority, relative to every task pending at that instant); and no
event except a task's own completion removes an already-admitted task — a
later higher-priority arrival never preempts it. -/
theorem pool_admission_discipline :
    (∀ (maxC : Nat) (evs : List PoolQueue.QEvent),
       (PoolQueue.qrun (PoolQueue.initialQueue maxC) evs).running.length ≤ maxC) ∧
    (∀ (s : PoolQueue.QueueState) (t : PoolQueue.Task),
       s.running.length < s.maxConcurrent →
       PoolQueue.selectBest s.pending = some t →
       (PoolQueue.qstep s .start).running = s.running ++ [t] ∧
       ∀ u ∈ s.pending, u.priority ≤ t.priority ∧
         (t.priority = u.priority → t.seq ≤ u.seq)) ∧
    (∀ (s : PoolQueue.QueueState) (e : PoolQueue.QEvent) (t : PoolQueue.Task),
       t ∈ s.running → (∀ id, e = .complete id → t.id ≠ id) →
       t ∈ (PoolQueue.qstep s e).running) := by
  refine ⟨?_, ?_, ?_⟩
  · intro maxC evs
    have h0 : (PoolQueue.initialQueue maxC).running.length ≤
        (PoolQueue.initialQueue maxC).maxConcurrent := by
      simp [PoolQueue.initialQueue]
    have hb := PoolQueue.qrun_bound h0 evs
    rwa [PoolQueue.qrun_maxConcurrent] at hb
  · intro s t hr hsel
    constructor
    · simp [PoolQueue.qstep, hr, hsel]
    · intro u hu
      exact PoolQueue.selectBest_dominates hsel u hu
  · intro s e t ht hid
    cases e with
    | enqueue id p => exact ht
    | start =>
      unfold PoolQueue.qstep
      by_cases hr : s.running.length < s.maxConcurrent
      · rw [if_pos hr]
        cases hsel : PoolQueue.selectBest s.pending with
        | none => exact ht
        | some u =>
          dsimp only
          exact List.mem_append_left _ ht
      · rw [if_neg hr]; exact ht
    | complete id =>
      have hne : t.id ≠ id := hid id rfl
      unfold PoolQueue.qstep
      dsimp only
      refine List.mem_filter.mpr ⟨ht, ?_⟩
      simpa using hne

/-- Witness for C4: with bound 1 and tasks `(id 0, prio 0, seq 0)` and
`(id 1, prio 10, seq 1)` pending, `admit` starts the priority-10 task, and a
`complete 0` event leaves the running priority-10 task in place. -/
theorem pool_admission_discipline_witness :
    (PoolQueue.qstep ⟨1, [⟨0, 0, 0⟩, ⟨1, 10, 1⟩], [], 2⟩ PoolQueue.QEvent.start).running =
      [] ++ [⟨1, 10, 1⟩] ∧
    (⟨1, 10, 1⟩ : PoolQueue.Task) ∈
      (PoolQueue.qstep ⟨1, [], [⟨1, 10, 1⟩], 2⟩ (PoolQueue.QEvent.complete 0)).running :=
  ⟨(pool_admission_discipline.2.1 ⟨1, [⟨0, 0, 0⟩, ⟨1, 10, 1⟩], [], 2⟩ ⟨1, 10, 1⟩
      (by decide) (by decide)).1,
   pool_admission_discipline.2.2 ⟨1, [], [⟨1, 10, 1⟩], 2⟩ (PoolQueue.QEvent.complete 0)
      ⟨1, 10, 1⟩ (by decide) (by intro id hid; cases hid; decide)⟩

/-- C2: the route maps priority `high` to 10 and `normal` (also absent or
unrecognised) to 0; the pipeline submits to the pool with exactly the
caller's priority; and the queue never starts a pending priority-0 task
while a priority-10 task is pending, so the priority-10 task is admitted
first. -/
theorem extract_priority_forwarded :
    ExtractRoute.routePriority (some "high") = 10 ∧
    ExtractRoute.routePriority (some "normal") = 0 ∧
    ExtractRoute.routePriority none = 0 ∧
    (∀ (e : String) (t : Nat) (p : Int) (q : Nat),
      extractM3u8SubmitPriority e t p q = p) ∧
    (∀ (s : PoolQueue.QueueState) (t0 t10 : PoolQueue.Task),
      t0 ∈ s.pending → t10 ∈ s.pending →
      t0.priority = 0 → t10.priority = 10 →
      PoolQueue.selectBest s.pending ≠ some t0) := by
  refine ⟨rfl, rfl, rfl, fun _ _ _ _ => rfl, ?_⟩
  intro s t0 t10 h0 h10 hp0 hp10 hsel
  have hd := PoolQueue.selectBest_dominates hsel t10 h10
  have h1 : t10.priority ≤ t0.priority := hd.1
  rw [hp0, hp10] at h1
  omega

/-- Witness for C2: with a priority-0 and a priority-10 task pending, the
queue does not select the priority-0 task. -/
theorem extract_priority_forwarded_witness :
    PoolQueue.selectBest
        (⟨2, [⟨0, 0, 0⟩, ⟨1, 10, 1⟩], [], 2⟩ : PoolQueue.QueueState).pending ≠
      some ⟨0, 0, 0⟩ :=
  extract_priority_forwarded.2.2.2.2 ⟨2, [⟨0, 0, 0⟩, ⟨1, 10, 1⟩], [], 2⟩
    ⟨0, 0, 0⟩ ⟨1, 10, 1⟩ (by decide) (by decide) rfl rfl

/-- C1: an extraction whose browser acquisition is rejected by the open
circuit breaker, or whose launch/driver call fails, surfaces to the HTTP
requester as a 503 response counted `failure/circuit_open`
(resp. `failure/browser_error`); an error outcome is never converted into
the 200 `{success:false}` manifest-not-found response. -/
theorem extract_error_propagates_503 (secs : Nat) (msg : String)
    (hmsg : strContains msg "Circuit breaker" = false) :
    ((ExtractRoute.extractHandlerOutcome
        (extractM3u8Outcome (.error (.circuitOpenRejection secs)))).1.status = 503 ∧
     (ExtractRoute.extractHandlerOutcome
        (extractM3u8Outcome (.error (.circuitOpenRejection secs)))).2 =
       { status := "failure", errorType := "circuit_open" }) ∧
    ((ExtractRoute.extractHandlerOutcome
        (extractM3u8Outcome (.error (.driverFailure msg)))).1.status = 503 ∧
     (ExtractRoute.extractHandlerOutcome
        (extractM3u8Outcome (.error (.driverFailure msg)))).2 =
       { status := "failure", errorType := "browser_error" }) ∧
    (∀ e : PoolError,
      (ExtractRoute.extractHandlerOutcome (extractM3u8Outcome (.error e))).1.status ≠ 200 ∧
      (ExtractRoute.extractHandlerOutcome (extractM3u8Outcome (.error e))).1 ≠
        (ExtractRoute.extractHandlerOutcome (.ok none)).1) := by
  refine ⟨⟨?_, ?_⟩, ⟨?_, ?_⟩, ?_⟩
  · rfl
  · simp [ExtractRoute.extractHandlerOutcome, extractM3u8Outcome, poolErrorMessage,
      ExtractRoute.classifyError, circuitOpenMessage_contains, ExtractRoute.errorTypeLabel]
  · rfl
  · simp [ExtractRoute.extractHandlerOutcome, extractM3u8Outcome, poolErrorMessage,
      ExtractRoute.classifyError, hmsg, ExtractRoute.errorTypeLabel]
  · intro e
    constructor
    · cases e <;> simp [ExtractRoute.extractHandlerOutcome, extractM3u8Outcome]
    · cases e <;>
        simp [ExtractRoute.extractHandlerOutcome, extractM3u8Outcome,
          ExtractRoute.HttpResponse.mk.injEq]

/-- Witness for C1: a circuit-open rejection with 30 s remaining yields a
503 counted `failure/circuit_open`; a driver failure message yields a 503
counted `failure/browser_error`. -/
theorem extract_error_propagates_503_witness :
    ((ExtractRoute.extractHandlerOutcome
        (extractM3u8Outcome (.error (.circuitOpenRejection 30)))).1.status = 503 ∧
     (ExtractRoute.extractHandlerOutcome
        (extractM3u8Outcome (.error (.circuitOpenRejection 30)))).2 =
       { status := "failure", errorType := "circuit_open" }) ∧
    (ExtractRoute.extractHandlerOutcome
        (extractM3u8Outcome (.error (.driverFailure "Target crashed")))).2 =
      { status := "failure", errorType := "browser_error" } :=
  ⟨(extract_error_propagates_503 30 "Target crashed" (by decide)).1,
   (extract_error_propagates_503 30 "Target crashed" (by decide)).2.1.2⟩

/-- C5: every successful ExtractionResult carries a headers map with
`Referer`, `Origin` and `User-Agent`; `Origin` is the URL origin of
`Referer`; `Referer` ends with `/`; the `Origin` follows the claimed
derivation rule (request referer when present and parseable, else the embed
URL's origin); and the cookies field is present iff the snapshot taken
before the abort held at least one cookie. -/
theorem extraction_result_invariants (url : String) (refHdr : Option String)
    (embedUrl : String) (snapshot : Option (List (String × String)))
    (r : ExtractedStream)
    (h : manifestResult url refHdr embedUrl snapshot = some r) :
    r.headers.isSome = true ∧
    resultHeaderLookup r "User-Agent" = some STEALTH_UA ∧
    (resultHeaderLookup r "Origin").isSome = true ∧
    resultHeaderLookup r "Referer" = (resultHeaderLookup r "Origin").map (· ++ "/") ∧
    (resultHeaderLookup r "Referer").bind originOfString = resultHeaderLookup r "Origin" ∧
    (resultHeaderLookup r "Referer").map (fun v => strEndsWithLit v "/") = some true ∧
    resultHeaderLookup r "Origin" = refererOriginSpec (refererHeaderOrNull refHdr) embedUrl ∧
    (r.cookies.isSome = true ↔ ∃ l, snapshot = some l ∧ l ≠ []) := by
  unfold manifestResult at h
  cases hro : refererOriginOf (refererHeaderOrNull refHdr) embedUrl with
  | none => rw [hro] at h; simp at h
  | some o =>
    rw [hro] at h
    dsimp only at h
    simp only [Option.some.injEq] at h
    subst h
    obtain ⟨s0, u, hu, ho⟩ := refererOriginOf_shape hro
    refine ⟨rfl, rfl, rfl, rfl, ?_, ?_, ?_, ?_⟩
    · show originOfString (o ++ "/") = some o
      subst ho
      exact originOfString_roundtrip hu
    · show some (strEndsWithLit (o ++ "/") "/") = some true
      rw [strEndsWithLit_append_slash]
    · show some o = refererOriginSpec (refererHeaderOrNull refHdr) embedUrl
      rw [← refererOriginOf_eq_spec, hro]
    · exact cookieStringOf_isSome snapshot

/-- Witness for C5: the happy-path inputs — manifest
`https://cdn.example.com/stream.m3u8` with request referer
`https://player.example.com/iframe`, embed `https://embed.example.com/e/abc`
and one captured cookie. -/
theorem extraction_result_invariants_witness :
    resultHeaderLookup
      { url := "https://cdn.example.com/stream.m3u8",
        headers := some [("Referer", "https://player.example.com" ++ "/"),
                         ("Origin", "https://player.example.com"),
                         ("User-Agent", STEALTH_UA)],
        cookies := some "session=abc123" } "User-Agent" = some STEALTH_UA ∧
    ((ExtractedStream.cookies
      { url := "https://cdn.example.com/stream.m3u8",
        headers := some [("Referer", "https://player.example.com" ++ "/"),
                         ("Origin", "https://player.example.com"),
                         ("User-Agent", STEALTH_UA)],
        cookies := some "session=abc123" }).isSome = true ↔
      ∃ l, (some [("session", "abc123")] :
              Option (List (String × String))) = some l ∧ l ≠ []) := by
  have ht := extraction_result_invariants "https://cdn.example.com/stream.m3u8"
    (some "https://player.example.com/iframe") "https://embed.example.com/e/abc"
    (some [("session", "abc123")])
    { url := "https://cdn.example.com/stream.m3u8",
      headers := some [("Referer", "https://player.example.com" ++ "/"),
                       ("Origin", "https://player.example.com"),
                       ("User-Agent", STEALTH_UA)],
      cookies := some "session=abc123" }
    (by decide)
  exact ⟨ht.2.1, ht.2.2.2.2.2.2.2⟩

/-- C7: the single route interceptor classifies every request exactly as the
claim's table (manifest check first, then resource-type blocking, then
non-player script blocking, then telemetry xhr/fetch blocking, then generic
block patterns, else continue), and a classification aborts iff it is not the
continue branch. -/
theorem route_interceptor_classification :
    ∀ url resourceType : String,
      routeDecision url resourceType = claimRouteDecision url resourceType ∧
      ((routeDecision url resourceType).aborts = false ↔
        routeDecision url resourceType = RouteDecision.proceed) := by
  intro url rt
  constructor
  · rfl
  · generalize routeDecision url rt = d
    cases d <;> simp [RouteDecision.aborts]

/-- C8: once the first manifest has set the `resolved` flag, every later
target `.m3u8` request is aborted with the extraction state — including the
captured result — unchanged; an extraction delivers at most one outcome; and
(for a parseable embed URL) exactly one outcome once a manifest arrives or
the timeout fires. -/
theorem single_outcome_per_extraction :
    (∀ (embedUrl : String) (s : ExtState) (r : RouteRequest)
       (snap : Option (List (String × String))),
       s.resolved = true → isTargetManifest r.url = true →
       routeStep embedUrl s r snap = (s, true)) ∧
    (∀ (embedUrl : String) (evs : List ExtEvent),
       (extRun embedUrl extInit evs).outcomes.length ≤ 1) ∧
    (∀ (embedUrl : String) (evs : List ExtEvent),
       (parseUrl embedUrl).isSome = true →
       (∃ e ∈ evs, resolvingEvent e = true) →
       (extRun embedUrl extInit evs).outcomes.length = 1) := by
  refine ⟨?_, ?_, ?_⟩
  · intro embedUrl s r snap hres ht
    unfold routeStep
    simp [ht, hres]
  · intro embedUrl evs
    exact (ExtrInv.extRun_inv ExtrInv.extInit_inv embedUrl evs).1
  · intro embedUrl evs hp hres
    exact ExtrInv.extRun_exactly_one hp (ExtrInv.extInit_invP embedUrl) hres

/-- Witness for C8: a second manifest request after resolution is aborted
without touching the captured outcome, and a run consisting of one timeout
event delivers exactly one outcome. -/
theorem single_outcome_per_extraction_witness :
    routeStep "https://embed.example.com/e/abc"
        { resolved := true, timeoutArmed := false, outcomes := [] }
        { url := "https://cdn.example.com/other.m3u8", resourceType := "xhr",
          refererHeader := none } none =
      ({ resolved := true, timeoutArmed := false, outcomes := [] }, true) ∧
    (extRun "https://embed.example.com/e/abc" extInit [ExtEvent.timeoutFire]).outcomes.length
      = 1 :=
  ⟨single_outcome_per_extraction.1 "https://embed.example.com/e/abc"
      { resolved := true, timeoutArmed := false, outcomes := [] }
      { url := "https://cdn.example.com/other.m3u8", resourceType := "xhr",
        refererHeader := none } none rfl (by decide),
   single_outcome_per_extraction.2.2 "https://embed.example.com/e/abc"
      [ExtEvent.timeoutFire] (by decide) ⟨ExtEvent.timeoutFire, by decide, rfl⟩⟩

/-- C9: inside the manifest branch of the route handler, the cookie snapshot
from the extraction's context is taken strictly before the manifest request
is aborted, so the context is still live when cookies are read. -/
theorem cookies_before_abort :
    ManifestStep.snapshotCookies ∈ manifestBranchTrace ∧
    ManifestStep.abortRequest ∈ manifestBranchTrace ∧
    manifestBranchTrace.findIdx (· == ManifestStep.snapshotCookies) <
      manifestBranchTrace.findIdx (· == ManifestStep.abortRequest) := by
  refine ⟨by decide, by decide, by decide⟩

end EPExtraction
